import Mathlib

/-!
bloom_example: a threat-indicator lookup service guarded by a Bloom filter

A shallow embedding of `main.go`: the two request handlers `SimpleSearch` and
`BloomSearch`, the start-up routine `createBloomFilter`, the global variables
`DB` and `BF`, and the part of the imported Bloom-filter package that the
program calls (`NewWithEstimates`, `Add`, `Test`).

The relational store behind `DB` is an external collaborator.  It is modelled
as a table of rows together with a description of which of its operations fail,
so that every path of the handlers, including the error paths, can be taken.
-/

namespace BloomExample

/-! ## Data model (main.go, lines 73-89) -/

/-- The request body `searchReq`. -/
structure searchReq where
  Value : String
deriving DecidableEq, Repr

/-- The row type `ThreatInfo`; the Go field `Type` is spelled `Typ` here. -/
structure ThreatInfo where
  Category : String
  GEO : String
  Value : String
  Typ : String
  Source : String
deriving DecidableEq, Repr

/-- The zero value of `ThreatInfo`, what `var threat ThreatInfo` declares. -/
def ThreatInfo.zero : ThreatInfo := ⟨"", "", "", "", ""⟩

/-- The response `searchRes`.  `Data` has Go type `any`: it is `nil` until the
handler stores a `ThreatInfo` in it. -/
structure searchRes where
  Code : Int
  Message : String
  Data : Option ThreatInfo
deriving DecidableEq, Repr

/-- The zero value of `searchRes`, what `var res searchRes` declares. -/
def searchRes.zero : searchRes := ⟨0, "", none⟩

/-! ## The Bloom filter behind `BF` -/

/-- Modelled from the spec: the bit array of the Membership Index ("derived
bit-array size m").  The packages that implement the index are imported by
main.go (`github.com/willf/bloom` and its bit set) and are not part of the
repository; where the spec leaves a detail open the model keeps to what those
packages do.  The bit array is a growable list of bits. -/
structure BitSet where
  bits : List Bool
deriving DecidableEq, Repr

/-- Modelled from the spec: a bit array of `length` cleared bits. -/
def BitSet.New (length : Nat) : BitSet := ⟨List.replicate length false⟩

/-- Modelled from the spec: set bit `i`, growing the array when `i` lies
beyond its end ("each element insertion during build is a pure additive
operation"). -/
def BitSet.Set (b : BitSet) (i : Nat) : BitSet :=
  if i < b.bits.length then ⟨b.bits.set i true⟩
  else ⟨b.bits ++ List.replicate (i - b.bits.length) false ++ [true]⟩

/-- Modelled from the spec: read bit `i`; a bit beyond the end reads as
cleared. -/
def BitSet.Test (b : BitSet) (i : Nat) : Bool :=
  if i < b.bits.length then b.bits.getD i false else false

/-- Modelled from the spec: the Membership Index, `*bloom.BloomFilter` in
main.go: bit-array size `m`, hash-function count `k` and the bit array. -/
structure BloomFilter where
  m : Nat
  k : Nat
  b : BitSet
deriving DecidableEq, Repr

/-- Modelled from the spec: allocation of an empty index for given `m` and
`k`; both are kept at least 1 so that a location can always be reduced
modulo `m`. -/
def BloomFilter.New (m k : Nat) : BloomFilter := ⟨max 1 m, max 1 k, BitSet.New m⟩

/-- Modelled from the spec: the index is sized from the expected element count
and the target false-positive rate ("m = ceil(-n·ln(p) / (ln 2)^2)", k derived
from m/n).  The sizing is floating-point arithmetic; it is taken as the
parameter `est`, and the rate is carried as a rational. -/
def NewWithEstimates (est : Nat → ℚ → Nat × Nat) (n : Nat) (fp : ℚ) : BloomFilter :=
  BloomFilter.New (est n fp).1 (est n fp).2

/-- Modelled from the spec: the `i`-th of the `k` hash functions ("hash-function
count k"), computed as the imported package does from four 64-bit base hashes
`h 0 .. h 3` of the key, in 64-bit unsigned arithmetic. -/
def location (h : Nat → Nat) (i : Nat) : Nat :=
  (h (i % 2) + i * h (2 + (((i + (i % 2)) % 4) / 2))) % 2 ^ 64

/-- Modelled from the spec: the `i`-th probe position reduced to the bit
array. -/
def BloomFilter.location (f : BloomFilter) (h : Nat → Nat) (i : Nat) : Nat :=
  BloomExample.location h i % f.m

/-- Modelled from the spec: `BF.Add(key)`: set the `k` probe positions of the
key ("a pure additive operation").  `baseHashes` is the hash of the key's
bytes; the hash function itself is a parameter of the model. -/
def BloomFilter.Add (baseHashes : String → Nat → Nat) (f : BloomFilter) (data : String) :
    BloomFilter :=
  { f with b := (List.range f.k).foldl (fun b i => b.Set (f.location (baseHashes data) i)) f.b }

/-- Modelled from the spec: `BF.Test(key)`: true when all `k` probe positions
of the key are set. -/
def BloomFilter.Test (baseHashes : String → Nat → Nat) (f : BloomFilter) (data : String) :
    Bool :=
  (List.range f.k).all (fun i => f.b.Test (f.location (baseHashes data) i))

/-! ## The store behind `DB` -/

/-- Which operations of the store fail, and how.
* `findErr key`: the error of the point lookup `Where("value = ?", key).Find`;
* `rowsErr`: the error of opening the enumeration `Select("value").Rows()`;
* `scanErr i`: the error of `rows.Scan` on the `i`-th enumerated row;
* `nextErr`: `some (n, e)` when `rows.Next()` gives `false` after `n` rows
  because the enumeration broke with error `e`. -/
structure Faults where
  findErr : String → Option String
  rowsErr : Option String
  scanErr : Nat → Option String
  nextErr : Option (Nat × String)

/-- No operation fails. -/
def Faults.none : Faults := ⟨fun _ => Option.none, Option.none, fun _ => Option.none, Option.none⟩

/-- The store: the rows of `your_table`, in the order the database returns
them, and the failures of its operations. -/
structure Store where
  table : List ThreatInfo
  faults : Faults

/-- One row handed out by `rows.Next()`: the `value` column and the error of
`rows.Scan(&threat.Value)` on it, if any. -/
structure RowRead where
  value : String
  scanErr : Option String
deriving DecidableEq, Repr

/-- The rows an open enumeration yields before `rows.Next()` gives `false`. -/
def Store.reads (db : Store) : List RowRead :=
  let all := db.table.enum.map (fun (p : Nat × ThreatInfo) => RowRead.mk p.2.Value (db.faults.scanErr p.1))
  match db.faults.nextErr with
  | some (n, _) => all.take n
  | Option.none => all

/-- The call `DB.Table("your_table").Select("value").Rows()`. -/
def Store.Rows (db : Store) : Except String (List RowRead) :=
  match db.faults.rowsErr with
  | some e => .error e
  | Option.none => .ok db.reads

/-- The store's point lookup: the first row whose `value` equals the key, no
row, or an error. -/
def Store.PointLookup (db : Store) (key : String) : Except String (Option ThreatInfo) :=
  match db.faults.findErr key with
  | some e => .error e
  | Option.none => .ok (db.table.find? (fun r => r.Value == key))

/-- The call `DB.Table("your_table").Where("value = ?", key).Find(&threat)`:
`tx.Error`, or the value of `threat` afterwards (unchanged when no row
matches). -/
def Store.Find (db : Store) (key : String) (threat : ThreatInfo) : Except String ThreatInfo :=
  match db.PointLookup key with
  | .error e => .error e
  | .ok (some r) => .ok r
  | .ok Option.none => .ok threat

/-! ## Global state -/

/-- A call issued to the store through `DB`. -/
inductive StoreCall where
  | find (key : String)
  | rows
deriving DecidableEq, Repr

/-- The state the program's functions act on: the global `BF` (a pointer,
`nil` until `createBloomFilter` has run), the calls issued to the store so far
and the lines written with the `log` package. -/
structure World where
  BF : Option BloomFilter
  calls : List StoreCall
  logged : List String
deriving DecidableEq, Repr

/-- What a handler hands back to the framework: the body passed to
`c.JSON(status, res)`, or a run-time panic (a `nil` `BF` dereferenced). -/
inductive Reply where
  | json (status : Nat) (res : searchRes)
  | panic
deriving DecidableEq, Repr

/-! ## The handlers (main.go, lines 91-141) -/

/-- The handler `SimpleSearch`.  `bind` is the result of `c.BindJSON(&req)`. -/
def SimpleSearch (db : Store) (w : World) (bind : Except String searchReq) : Reply × World :=
  let res := searchRes.zero
  let threat := ThreatInfo.zero
  match bind with
  | .error err => (.json 200 { res with Code := 1000, Message := err }, w)
  | .ok req =>
    let w1 := { w with calls := w.calls ++ [StoreCall.find req.Value] }
    match db.Find req.Value threat with
    | .error e => (.json 200 { res with Code := 1000, Message := e }, w1)
    | .ok threat => (.json 200 { res with Code := 1001, Message := "sucess", Data := some threat }, w1)

/-- The handler `BloomSearch`.  `bind` is the result of `c.BindJSON(&req)`,
`baseHashes` the hash function of the filter. -/
def BloomSearch (baseHashes : String → Nat → Nat) (db : Store) (w : World)
    (bind : Except String searchReq) : Reply × World :=
  let res := searchRes.zero
  let threat := ThreatInfo.zero
  match bind with
  | .error err => (.json 200 { res with Code := 1000, Message := err }, w)
  | .ok req =>
    match w.BF with
    | none => (.panic, w)
    | some bf =>
      if bf.Test baseHashes req.Value then
        let w1 := { w with calls := w.calls ++ [StoreCall.find req.Value] }
        match db.Find req.Value threat with
        | .error e => (.json 200 { res with Code := 1000, Message := e }, w1)
        | .ok threat =>
          (.json 200 { res with Code := 1001, Message := "sucess", Data := some threat }, w1)
      else
        (.json 200 { res with Code := 1001, Message := "sucess", Data := some threat }, w)

/-! ## Building the filter (main.go, lines 143-161) -/

/-- The loop `for rows.Next() { ... }`: a row whose `Scan` fails is logged and
skipped, every other row's value is added to the filter `BF` points to.
`BF.Add` changes that filter in place; the loop threads the filter and the log
lines. -/
def scanLoop (baseHashes : String → Nat → Nat) :
    List RowRead → BloomFilter × List String → BloomFilter × List String
  | [], s => s
  | r :: rs, (bf, logged) =>
    match r.scanErr with
    | some err => scanLoop baseHashes rs (bf, logged ++ [err])
    | none => scanLoop baseHashes rs (bf.Add baseHashes r.value, logged)

/-- How a call of `createBloomFilter` ends: it returns, or `log.Fatalln`
terminates the process. -/
inductive BuildResult where
  | returned (w : World)
  | fatal (w : World)
deriving DecidableEq, Repr

/-- The state a build ends in. -/
def BuildResult.world : BuildResult → World
  | .returned w => w
  | .fatal w => w

/-- The function `createBloomFilter`. -/
def createBloomFilter (est : Nat → ℚ → Nat × Nat) (baseHashes : String → Nat → Nat)
    (db : Store) (w : World) (expectedItems : Nat) (falsePositiveRate : ℚ) : BuildResult :=
  let bf := NewWithEstimates est expectedItems falsePositiveRate
  let w1 := { w with BF := some bf, calls := w.calls ++ [StoreCall.rows] }
  match db.Rows with
  | .error err => .fatal { w1 with logged := w1.logged ++ [err] }
  | .ok rows =>
    let s := scanLoop baseHashes rows (bf, w1.logged)
    .returned { w1 with BF := some s.1, logged := s.2 }

/-- The keys `createBloomFilter` passes to `BF.Add` for a sequence of rows. -/
def addedKeys : List RowRead → List String
  | [] => []
  | r :: rs =>
    match r.scanErr with
    | some _ => addedKeys rs
    | none => r.value :: addedKeys rs

/-- One turn of the loop body (main.go, lines 155-159) on the filter `BF`
points to and the lines logged so far. -/
def scanStep (baseHashes : String → Nat → Nat) (r : RowRead)
    (s : BloomFilter × List String) : BloomFilter × List String :=
  match r.scanErr with
  | some err => (s.1, s.2 ++ [err])
  | none => (s.1.Add baseHashes r.value, s.2)

/-- The filter and the log after each turn of the loop, in order. -/
def scanStates (baseHashes : String → Nat → Nat) :
    List RowRead → BloomFilter × List String → List (BloomFilter × List String)
  | [], _ => []
  | r :: rs, s =>
    scanStep baseHashes r s :: scanStates baseHashes rs (scanStep baseHashes r s)

/-- The global state after each statement of `createBloomFilter` that changes
it, in program order: after the assignment to `BF` on line 146, after the call
of `Rows()` on line 149 (followed by the `log.Fatalln` of line 151 when it
fails), and after each turn of the loop of lines 154-160. -/
def buildStates (est : Nat → ℚ → Nat × Nat) (baseHashes : String → Nat → Nat)
    (db : Store) (w : World) (expectedItems : Nat) (falsePositiveRate : ℚ) : List World :=
  let bf := NewWithEstimates est expectedItems falsePositiveRate
  let wA := { w with BF := some bf }
  let wR := { wA with calls := wA.calls ++ [StoreCall.rows] }
  match db.Rows with
  | .error err => [wA, wR, { wR with logged := wR.logged ++ [err] }]
  | .ok rows =>
    wA :: wR :: (scanStates baseHashes rows (bf, wR.logged)).map
      (fun s => { wR with BF := some s.1, logged := s.2 })

/-- A hash function for the examples: four base hashes from the bytes of the
key. -/
def demoHashes (s : String) (j : Nat) : Nat :=
  s.toList.foldl (fun a c => a * 31 + c.toNat) (j + 7)

/-- The sizing for the examples with rate 1 and a positive `expectedItems`: the
formula gives `m = 0` and `k = 0` there (`ln 1 = 0`). -/
def estRateOne : Nat → ℚ → Nat × Nat := fun _ _ => (0, 0)

/-- The sizing for the examples with `expectedItems = 1000` and rate 0.01: the
formula gives `m = 9586` and `k = 7` there. -/
def est1000 : Nat → ℚ → Nat × Nat := fun _ _ => (9586, 7)

/-- The sizing for the example with `expectedItems = 1` and rate 0.01: the
formula gives `m = 10` and `k = 7` there. -/
def estOne : Nat → ℚ → Nat × Nat := fun _ _ => (10, 7)

/-! ## The bit array and the filter: insertion is additive -/

theorem BitSet.Test_eq (b : BitSet) (i : Nat) : b.Test i = (b.bits[i]?).getD false := by
  unfold BitSet.Test
  split
  · simp [List.getD_eq_getElem?_getD]
  · rename_i h
    simp [List.getElem?_eq_none (Nat.le_of_not_lt h)]

theorem BitSet.Test_Set (b : BitSet) (i j : Nat) :
    (b.Set i).Test j = (decide (j = i) || b.Test j) := by
  simp only [BitSet.Test_eq]
  unfold BitSet.Set
  split
  · rename_i h
    by_cases hj : j = i
    · subst hj; simp [h]
    · simp [hj, List.getElem?_set_ne (Ne.symm hj)]
  · rename_i h
    have h := Nat.le_of_not_lt h
    rcases Nat.lt_trichotomy j i with hlt | heq | hgt
    · have hne : j ≠ i := Nat.ne_of_lt hlt
      by_cases hjl : j < b.bits.length
      · simp [hne, List.getElem?_append_left, hjl]
      · have hjl := Nat.le_of_not_lt hjl
        rw [List.append_assoc, List.getElem?_append_right hjl, List.getElem?_eq_none hjl]
        have : j - b.bits.length < i - b.bits.length := by omega
        simp [hne, List.getElem?_append_left, this, List.getElem?_replicate]
    · subst heq
      rw [List.getElem?_append_right (by simp; omega)]
      have e : j - (b.bits ++ List.replicate (j - b.bits.length) false).length = 0 := by
        simp; omega
      rw [e]; simp
    · have hne : j ≠ i := Nat.ne_of_gt hgt
      rw [List.getElem?_eq_none (by simp; omega), List.getElem?_eq_none (by omega)]
      simp [hne]

theorem BitSet.Test_foldl_Set (g : Nat → Nat) (l : List Nat) (b : BitSet) (j : Nat) :
    (l.foldl (fun b i => b.Set (g i)) b).Test j
      = (l.any (fun i => decide (j = g i)) || b.Test j) := by
  induction l generalizing b with
  | nil => simp
  | cons a l ih =>
    simp only [List.foldl_cons, ih, BitSet.Test_Set, List.any_cons]
    cases decide (j = g a) <;> cases l.any (fun i => decide (j = g i)) <;> simp

theorem BloomFilter.Test_Add (h : String → Nat → Nat) (f : BloomFilter) (x y : String) :
    (f.Add h x).Test h y
      = (List.range f.k).all (fun i =>
          (List.range f.k).any (fun i' => decide (f.location (h y) i = f.location (h x) i'))
            || f.b.Test (f.location (h y) i)) := by
  simp only [BloomFilter.Test, BloomFilter.Add, BloomFilter.location, BitSet.Test_foldl_Set]

/-- A key tests positive right after it was added. -/
theorem BloomFilter.Test_Add_self (h : String → Nat → Nat) (f : BloomFilter) (x : String) :
    (f.Add h x).Test h x = true := by
  rw [BloomFilter.Test_Add, List.all_eq_true]
  intro i hi
  rw [Bool.or_eq_true]
  left
  rw [List.any_eq_true]
  exact ⟨i, hi, by simp⟩

/-- Adding a key never turns a positive test into a negative one. -/
theorem BloomFilter.Test_Add_mono (h : String → Nat → Nat) (f : BloomFilter) (x y : String)
    (hy : f.Test h y = true) : (f.Add h x).Test h y = true := by
  rw [BloomFilter.Test_Add, List.all_eq_true]
  intro i hi
  rw [Bool.or_eq_true]
  right
  unfold BloomFilter.Test at hy
  rw [List.all_eq_true] at hy
  exact hy i hi

/-- Adding keys one after the other keeps earlier positives. -/
theorem BloomFilter.Test_foldl_Add_mono (h : String → Nat → Nat) (keys : List String)
    (f : BloomFilter) (y : String) (hy : f.Test h y = true) :
    (keys.foldl (BloomFilter.Add h) f).Test h y = true := by
  induction keys generalizing f with
  | nil => exact hy
  | cons a keys ih => exact ih (f.Add h a) (BloomFilter.Test_Add_mono h f a y hy)

/-- Every key of a sequence of insertions tests positive at the end. -/
theorem BloomFilter.Test_foldl_Add_mem (h : String → Nat → Nat) (keys : List String)
    (f : BloomFilter) (y : String) (hy : y ∈ keys) :
    (keys.foldl (BloomFilter.Add h) f).Test h y = true := by
  induction keys generalizing f with
  | nil => cases hy
  | cons a keys ih =>
    rcases List.mem_cons.mp hy with rfl | hmem
    · exact BloomFilter.Test_foldl_Add_mono h keys _ y (BloomFilter.Test_Add_self h f y)
    · exact ih (f.Add h a) hmem

/-- Every bit of a new bit array is cleared. -/
theorem BitSet.Test_fresh (m j : Nat) : (BitSet.New m).Test j = false := by
  rw [BitSet.Test_eq]
  simp only [BitSet.New, List.getElem?_replicate]
  split <;> rfl

/-- A freshly allocated filter rejects every key. -/
theorem BloomFilter.Test_New (h : String → Nat → Nat) (m k : Nat) (y : String) :
    (BloomFilter.New m k).Test h y = false := by
  cases htest : (BloomFilter.New m k).Test h y with
  | false => rfl
  | true =>
    unfold BloomFilter.Test at htest
    rw [List.all_eq_true] at htest
    have h0 := htest 0 (List.mem_range.mpr (by simp [BloomFilter.New]))
    simp [BloomFilter.New, BitSet.Test_fresh] at h0

/-! ## The build loop -/

/-- The loop adds exactly the keys of the rows whose `Scan` succeeded, in
order. -/
theorem scanLoop_fst (h : String → Nat → Nat) (rows : List RowRead) (bf : BloomFilter)
    (logged : List String) :
    (scanLoop h rows (bf, logged)).1 = (addedKeys rows).foldl (BloomFilter.Add h) bf := by
  induction rows generalizing bf logged with
  | nil => rfl
  | cons r rows ih =>
    cases hr : r.scanErr with
    | none => simp [scanLoop, addedKeys, hr, ih]
    | some e => simp [scanLoop, addedKeys, hr, ih]

/-- The lines the loop logs are the `Scan` errors, in order. -/
theorem scanLoop_snd (h : String → Nat → Nat) (rows : List RowRead) (bf : BloomFilter)
    (logged : List String) :
    (scanLoop h rows (bf, logged)).2 = logged ++ rows.filterMap (fun r => r.scanErr) := by
  induction rows generalizing bf logged with
  | nil => simp [scanLoop]
  | cons r rows ih =>
    cases hr : r.scanErr with
    | none => simp [scanLoop, hr, ih]
    | some e => simp [scanLoop, hr, ih]

/-- The filter a build publishes: the fresh filter with the scanned keys added. -/
theorem createBloomFilter_BF (est : Nat → ℚ → Nat × Nat) (h : String → Nat → Nat)
    (db : Store) (w : World) (n : Nat) (p : ℚ) (rows : List RowRead)
    (hrows : db.Rows = .ok rows) :
    createBloomFilter est h db w n p
      = .returned ⟨some ((addedKeys rows).foldl (BloomFilter.Add h) (NewWithEstimates est n p)),
          w.calls ++ [StoreCall.rows], w.logged ++ rows.filterMap (fun r => r.scanErr)⟩ := by
  simp [createBloomFilter, hrows, scanLoop_fst, scanLoop_snd]

/-! ## The handlers, path by path -/

/-- Row `i` of the table is handed out by the enumeration: it lies before the
point where `rows.Next()` breaks off, if there is one. -/
def Store.reaches (db : Store) (i : Nat) : Bool :=
  match db.faults.nextErr with
  | some (n, _) => decide (i < n)
  | Option.none => true

theorem Store.reads_getElem? (db : Store) (i : Nat) (row : ThreatInfo)
    (hrow : db.table[i]? = some row) (hreach : db.reaches i = true) :
    db.reads[i]? = some ⟨row.Value, db.faults.scanErr i⟩ := by
  have hall : (db.table.enum.map
      (fun (p : Nat × ThreatInfo) => RowRead.mk p.2.Value (db.faults.scanErr p.1)))[i]?
        = some ⟨row.Value, db.faults.scanErr i⟩ := by
    simp [List.getElem?_map, List.getElem?_enum, hrow]
  unfold Store.reads
  unfold Store.reaches at hreach
  cases hn : db.faults.nextErr with
  | none => simpa [hn] using hall
  | some ne =>
    obtain ⟨n, e⟩ := ne
    simp only [hn, decide_eq_true_eq] at hreach
    simp only []
    rw [List.getElem?_take_of_lt hreach]
    exact hall

theorem mem_addedKeys (rows : List RowRead) (key : String) :
    key ∈ addedKeys rows ↔ ∃ r ∈ rows, r.scanErr = none ∧ r.value = key := by
  induction rows with
  | nil => simp [addedKeys]
  | cons r rows ih =>
    cases hr : r.scanErr with
    | none =>
      simp only [addedKeys, hr, List.mem_cons, ih]
      constructor
      · rintro (rfl | ⟨r', hr', hs, hv⟩)
        · exact ⟨r, Or.inl rfl, hr, rfl⟩
        · exact ⟨r', Or.inr hr', hs, hv⟩
      · rintro ⟨r', (rfl | hr'), hs, hv⟩
        · exact Or.inl hv.symm
        · exact Or.inr ⟨r', hr', hs, hv⟩
    | some e =>
      simp only [addedKeys, hr, List.mem_cons, ih]
      constructor
      · rintro ⟨r', hr', hs, hv⟩
        exact ⟨r', Or.inr hr', hs, hv⟩
      · rintro ⟨r', (rfl | hr'), hs, hv⟩
        · rw [hr] at hs; cases hs
        · exact ⟨r', hr', hs, hv⟩

/-- A row that the enumeration hands out and whose `Scan` succeeds has its key
added to the filter. -/
theorem Store.mem_addedKeys_reads (db : Store) (i : Nat) (row : ThreatInfo)
    (hrow : db.table[i]? = some row) (hreach : db.reaches i = true)
    (hscan : db.faults.scanErr i = none) : row.Value ∈ addedKeys db.reads := by
  rw [mem_addedKeys]
  exact ⟨⟨row.Value, db.faults.scanErr i⟩,
    List.getElem?_mem (db.reads_getElem? i row hrow hreach), hscan, rfl⟩

/-- A row found by the point lookup carries the key that was looked up. -/
theorem Store.PointLookup_Value (db : Store) (key : String) (r : ThreatInfo)
    (hfind : db.PointLookup key = .ok (some r)) : r.Value = key := by
  unfold Store.PointLookup at hfind
  cases he : db.faults.findErr key with
  | some e => simp [he] at hfind
  | none =>
    simp only [he, Except.ok.injEq] at hfind
    have := List.find?_some hfind
    simpa using this

theorem SimpleSearch_error (db : Store) (w : World) (key e : String)
    (herr : db.PointLookup key = .error e) :
    SimpleSearch db w (.ok ⟨key⟩)
      = (.json 200 ⟨1000, e, none⟩, { w with calls := w.calls ++ [StoreCall.find key] }) := by
  simp [SimpleSearch, Store.Find, herr, searchRes.zero]

theorem SimpleSearch_found (db : Store) (w : World) (key : String) (r : ThreatInfo)
    (hfind : db.PointLookup key = .ok (some r)) :
    SimpleSearch db w (.ok ⟨key⟩)
      = (.json 200 ⟨1001, "sucess", some r⟩,
          { w with calls := w.calls ++ [StoreCall.find key] }) := by
  simp [SimpleSearch, Store.Find, hfind, searchRes.zero]

theorem SimpleSearch_absent (db : Store) (w : World) (key : String)
    (hfind : db.PointLookup key = .ok none) :
    SimpleSearch db w (.ok ⟨key⟩)
      = (.json 200 ⟨1001, "sucess", some ThreatInfo.zero⟩,
          { w with calls := w.calls ++ [StoreCall.find key] }) := by
  simp [SimpleSearch, Store.Find, hfind, searchRes.zero]

/-- When the filter rejects the key the handler answers without touching the
store. -/
theorem BloomSearch_rejected (h : String → Nat → Nat) (db : Store) (w : World)
    (bf : BloomFilter) (key : String) (hbf : w.BF = some bf)
    (ht : bf.Test h key = false) :
    BloomSearch h db w (.ok ⟨key⟩) = (.json 200 ⟨1001, "sucess", some ThreatInfo.zero⟩, w) := by
  simp [BloomSearch, hbf, ht, searchRes.zero]

/-- When the filter accepts the key the handler does what `SimpleSearch` does. -/
theorem BloomSearch_accepted (h : String → Nat → Nat) (db : Store) (w : World)
    (bf : BloomFilter) (key : String) (hbf : w.BF = some bf)
    (ht : bf.Test h key = true) :
    BloomSearch h db w (.ok ⟨key⟩) = SimpleSearch db w (.ok ⟨key⟩) := by
  simp only [BloomSearch, SimpleSearch, hbf, ht, if_true]

/-- `SimpleSearch` issues exactly one point lookup, whatever its outcome. -/
theorem SimpleSearch_calls (db : Store) (w : World) (key : String) :
    (SimpleSearch db w (.ok ⟨key⟩)).2.calls = w.calls ++ [StoreCall.find key] := by
  unfold SimpleSearch
  simp only []
  cases db.Find key ThreatInfo.zero <;> rfl

/-- The keys the loop adds are the values of the rows without a `Scan` error. -/
theorem addedKeys_eq_filter (rows : List RowRead) :
    addedKeys rows = (rows.filter (fun r => r.scanErr.isNone)).map RowRead.value := by
  induction rows with
  | nil => rfl
  | cons r rows ih =>
    cases hr : r.scanErr with
    | none => simp [addedKeys, hr, ih]
    | some e => simp [addedKeys, hr, ih]

/-- When every row fails to scan nothing is added. -/
theorem addedKeys_eq_nil (rows : List RowRead) (hall : ∀ r ∈ rows, r.scanErr ≠ none) :
    addedKeys rows = [] := by
  induction rows with
  | nil => rfl
  | cons r rows ih =>
    cases hr : r.scanErr with
    | none => exact absurd hr (hall r (List.mem_cons_self _ _))
    | some e =>
      simp only [addedKeys, hr]
      exact ih (fun r' hr' => hall r' (List.mem_cons_of_mem _ hr'))

/-- The loop is the iteration of its body. -/
theorem scanLoop_cons (h : String → Nat → Nat) (r : RowRead) (rows : List RowRead)
    (s : BloomFilter × List String) :
    scanLoop h (r :: rows) s = scanLoop h rows (scanStep h r s) := by
  obtain ⟨bf, logged⟩ := s
  cases hr : r.scanErr with
  | none => simp [scanLoop, scanStep, hr]
  | some e => simp [scanLoop, scanStep, hr]

/-- The state after `j` turns of the loop is the result of the loop over the
first `j` rows. -/
theorem scanStates_getElem? (h : String → Nat → Nat) (rows : List RowRead)
    (s : BloomFilter × List String) (j : Nat) (hj : j ≤ rows.length) :
    (s :: scanStates h rows s)[j]? = some (scanLoop h (rows.take j) s) := by
  induction rows generalizing s j with
  | nil =>
    have hj0 : j = 0 := by simpa using hj
    subst hj0
    simp [scanLoop]
  | cons r rows ih =>
    cases j with
    | zero => simp [scanLoop]
    | succ j =>
      have hj' : j ≤ rows.length := by simpa using hj
      simp only [scanStates, List.getElem?_cons_succ, List.take_succ_cons, scanLoop_cons]
      exact ih (scanStep h r s) j hj'

/-- The last state of the loop is its result. -/
theorem scanStates_getLast? (h : String → Nat → Nat) (rows : List RowRead)
    (s : BloomFilter × List String) :
    (s :: scanStates h rows s).getLast? = some (scanLoop h rows s) := by
  induction rows generalizing s with
  | nil => simp [scanStates, scanLoop]
  | cons r rows ih =>
    rw [scanLoop_cons, ← ih (scanStep h r s)]
    simp [scanStates, List.getLast?_cons_cons]

/-- On a filter of one bit and one probe, adding any key sets bit 0. -/
theorem BloomFilter.Add_one_bit (h : String → Nat → Nat) (b : BitSet) (x : String) :
    BloomFilter.Add h ⟨1, 1, b⟩ x = ⟨1, 1, b.Set 0⟩ := by
  simp [BloomFilter.Add, BloomFilter.location, List.range_succ, Nat.mod_one]

/-- Adding keys to the empty one-bit filter: bit 0 is set once a key is added. -/
theorem BloomFilter.foldl_Add_one_bit (h : String → Nat → Nat) (keys : List String) :
    keys.foldl (BloomFilter.Add h) ⟨1, 1, ⟨[]⟩⟩
      = ⟨1, 1, ⟨if keys = [] then [] else [true]⟩⟩ := by
  have hset : ∀ (ks : List String),
      ks.foldl (BloomFilter.Add h) ⟨1, 1, ⟨[true]⟩⟩ = ⟨1, 1, ⟨[true]⟩⟩ := by
    intro ks
    induction ks with
    | nil => rfl
    | cons a ks ih =>
      rw [List.foldl_cons, BloomFilter.Add_one_bit]
      simpa [BitSet.Set] using ih
  cases keys with
  | nil => rfl
  | cons a keys =>
    rw [List.foldl_cons, BloomFilter.Add_one_bit]
    simpa [BitSet.Set] using hset keys

/-! ## Fixtures for the examples -/

def rowA : ThreatInfo := ⟨"malware", "CN", "1.2.3.4", "ip", "feed"⟩

def rowB : ThreatInfo := ⟨"botnet", "RU", "5.6.7.8", "ip", "feed"⟩

/-- A store with two rows in which nothing fails. -/
def dbGood : Store := ⟨[rowA, rowB], Faults.none⟩

/-- A store with one row, on which `rows.Scan` fails during the enumeration. -/
def dbScanFail : Store :=
  ⟨[rowA], { Faults.none with scanErr := fun _ => some "sql: Scan error on column index 0" }⟩

/-- The two-row store, `rows.Scan` failing on the first of the rows. -/
def dbMixed : Store :=
  ⟨[rowA, rowB], { Faults.none with
    scanErr := fun i => if i = 0 then some "sql: Scan error on column index 0" else none }⟩

/-- The same store, the enumeration breaking off after the first row. -/
def dbBroken : Store :=
  ⟨[rowA, rowB], { Faults.none with nextErr := some (1, "unexpected EOF") }⟩

/-- The same store, every point lookup failing. -/
def dbDown : Store :=
  ⟨[rowA, rowB], { Faults.none with findErr := fun _ => some "connection refused" }⟩

/-- The state before the first build: `BF` is `nil`. -/
def w0 : World := ⟨none, [], []⟩

/-- A state with an empty filter published and one with the key 9.9.9.9 in
it. -/
def wEmpty : World := ⟨some (NewWithEstimates est1000 1000 (1 / 100)), [], []⟩

def wNine : World :=
  ⟨some ((NewWithEstimates est1000 1000 (1 / 100)).Add demoHashes "9.9.9.9"), [], []⟩

/-- The state after the start-up build over `dbScanFail`. -/
def wScanFail : World := (createBloomFilter est1000 demoHashes dbScanFail w0 1000 (1 / 100)).world

/-- The state after the start-up build over `dbGood`: the filter holds both
keys of the store. -/
def wOld : World := (createBloomFilter est1000 demoHashes dbGood w0 1000 (1 / 100)).world

/-- The state right after a rebuild from `wOld` has assigned the new filter to
`BF` (line 146). -/
def wMid : World := { wOld with BF := some (NewWithEstimates est1000 1000 (1 / 100)) }

/-- A state with an older, differently sized filter published. -/
def wPrev : World := ⟨some ((BloomFilter.New 64 3).Add demoHashes "5.6.7.8"), [], []⟩

/-! ## Properties of the handlers and of the build -/

/-- C1: when `BF.Test(key)` is false, `BloomSearch` issues no call to the
store (the call log is unchanged) and answers with the success response, code
1001, carrying the zero-valued record. -/
theorem C1_rejected_key_skips_store (h : String → Nat → Nat) (db : Store) (w : World)
    (bf : BloomFilter) (key : String) (hbf : w.BF = some bf) (ht : bf.Test h key = false) :
    (BloomSearch h db w (.ok ⟨key⟩)).1 = .json 200 ⟨1001, "sucess", some ThreatInfo.zero⟩ ∧
    (BloomSearch h db w (.ok ⟨key⟩)).2.calls = w.calls := by
  rw [BloomSearch_rejected h db w bf key hbf ht]
  exact ⟨rfl, rfl⟩

theorem C1_rejected_key_skips_store_witness :
    (BloomSearch demoHashes dbGood wEmpty (.ok ⟨"9.9.9.9"⟩)).1
      = .json 200 ⟨1001, "sucess", some ThreatInfo.zero⟩ ∧
    (BloomSearch demoHashes dbGood wEmpty (.ok ⟨"9.9.9.9"⟩)).2.calls = [] :=
  C1_rejected_key_skips_store demoHashes dbGood wEmpty (NewWithEstimates est1000 1000 (1 / 100))
    "9.9.9.9" rfl (BloomFilter.Test_New demoHashes _ _ _)

/-- C2: no false negatives.  Every key that `createBloomFilter` passed to
`BF.Add` during the build tests positive on the filter the build leaves in
`BF`, whatever else was added before or after it and whatever the sizing. -/
theorem C2_no_false_negatives (est : Nat → ℚ → Nat × Nat) (h : String → Nat → Nat)
    (db : Store) (w : World) (expectedItems : Nat) (falsePositiveRate : ℚ)
    (rows : List RowRead) (key : String)
    (hrows : db.Rows = .ok rows) (hkey : key ∈ addedKeys rows) :
    ∃ w' bf, createBloomFilter est h db w expectedItems falsePositiveRate = .returned w' ∧
      w'.BF = some bf ∧ bf.Test h key = true :=
  ⟨_, _, createBloomFilter_BF est h db w expectedItems falsePositiveRate rows hrows, rfl,
    BloomFilter.Test_foldl_Add_mem h (addedKeys rows) _ key hkey⟩

theorem C2_no_false_negatives_witness :
    ∃ w' bf, createBloomFilter estOne demoHashes dbGood w0 1 (1 / 100) = .returned w' ∧
      w'.BF = some bf ∧ bf.Test demoHashes "1.2.3.4" = true :=
  C2_no_false_negatives estOne demoHashes dbGood w0 1 (1 / 100)
    [⟨"1.2.3.4", none⟩, ⟨"5.6.7.8", none⟩] "1.2.3.4" rfl (List.mem_cons_self _ _)

/-- C3, as the code has it: when the enumeration could be opened, a row with
the key was handed out by it and scanned without error during the build, and
the point lookup finds a row `r` for the key, then on the state the build
leaves `BloomSearch` and `SimpleSearch` give the same response and state, the
success response (code 1001) carrying `r`. -/
theorem C3_equivalence_on_scanned_keys (est : Nat → ℚ → Nat × Nat)
    (h : String → Nat → Nat) (db : Store) (w : World) (expectedItems : Nat)
    (falsePositiveRate : ℚ) (i : Nat) (row r : ThreatInfo)
    (hopen : db.faults.rowsErr = none)
    (hrow : db.table[i]? = some row) (hreach : db.reaches i = true)
    (hscan : db.faults.scanErr i = none)
    (hfind : db.PointLookup row.Value = .ok (some r)) :
    BloomSearch h db (createBloomFilter est h db w expectedItems falsePositiveRate).world
        (.ok ⟨row.Value⟩)
      = SimpleSearch db (createBloomFilter est h db w expectedItems falsePositiveRate).world
        (.ok ⟨row.Value⟩) ∧
    (SimpleSearch db (createBloomFilter est h db w expectedItems falsePositiveRate).world
        (.ok ⟨row.Value⟩)).1 = .json 200 ⟨1001, "sucess", some r⟩ := by
  have hrows : db.Rows = .ok db.reads := by simp [Store.Rows, hopen]
  have hmem := db.mem_addedKeys_reads i row hrow hreach hscan
  rw [createBloomFilter_BF est h db w expectedItems falsePositiveRate db.reads hrows]
  refine ⟨BloomSearch_accepted h db _ _ row.Value rfl
    (BloomFilter.Test_foldl_Add_mem h _ _ _ hmem), ?_⟩
  rw [SimpleSearch_found db _ row.Value r hfind]

theorem C3_equivalence_on_scanned_keys_witness :
    BloomSearch demoHashes dbGood (createBloomFilter est1000 demoHashes dbGood w0 1000 (1 / 100)).world
        (.ok ⟨"5.6.7.8"⟩)
      = SimpleSearch dbGood (createBloomFilter est1000 demoHashes dbGood w0 1000 (1 / 100)).world
        (.ok ⟨"5.6.7.8"⟩) ∧
    (SimpleSearch dbGood (createBloomFilter est1000 demoHashes dbGood w0 1000 (1 / 100)).world
        (.ok ⟨"5.6.7.8"⟩)).1 = .json 200 ⟨1001, "sucess", some rowB⟩ :=
  C3_equivalence_on_scanned_keys est1000 demoHashes dbGood w0 1000 (1 / 100) 1 rowB rowB
    rfl rfl rfl rfl rfl

/-- C3 fails as stated: in `dbScanFail` the key 1.2.3.4 has a row, the filter
is the one `createBloomFilter` built from that store, and yet `BloomSearch`
answers with the zero-valued record while `SimpleSearch` answers with the
row. -/
theorem C3_counterexample :
    dbScanFail.PointLookup "1.2.3.4" = .ok (some rowA) ∧
    (BloomSearch demoHashes dbScanFail wScanFail (.ok ⟨"1.2.3.4"⟩)).1
      = .json 200 ⟨1001, "sucess", some ThreatInfo.zero⟩ ∧
    (SimpleSearch dbScanFail wScanFail (.ok ⟨"1.2.3.4"⟩)).1
      = .json 200 ⟨1001, "sucess", some rowA⟩ ∧
    (BloomSearch demoHashes dbScanFail wScanFail (.ok ⟨"1.2.3.4"⟩)).1
      ≠ (SimpleSearch dbScanFail wScanFail (.ok ⟨"1.2.3.4"⟩)).1 := by
  have hB := BloomSearch_rejected demoHashes dbScanFail wScanFail
    (NewWithEstimates est1000 1000 (1 / 100)) "1.2.3.4" rfl
    (BloomFilter.Test_New demoHashes _ _ _)
  have hS := SimpleSearch_found dbScanFail wScanFail "1.2.3.4" rowA rfl
  refine ⟨rfl, by rw [hB], by rw [hS], ?_⟩
  rw [hB, hS]
  decide

/-- C4: store errors are never masked.  When the point lookup for the key
fails with error text `e`, `SimpleSearch` answers with the failure response,
code 1000 and message `e`, and so does `BloomSearch` whenever the filter
accepts the key; that response is never a success response (code 1001). -/
theorem C4_store_errors_surface (h : String → Nat → Nat) (db : Store) (w : World)
    (key e : String) (herr : db.PointLookup key = .error e) :
    (SimpleSearch db w (.ok ⟨key⟩)).1 = .json 200 ⟨1000, e, none⟩ ∧
    (∀ bf, w.BF = some bf → bf.Test h key = true →
      (BloomSearch h db w (.ok ⟨key⟩)).1 = .json 200 ⟨1000, e, none⟩) ∧
    (∀ t : ThreatInfo, Reply.json 200 ⟨1000, e, none⟩ ≠ .json 200 ⟨1001, "sucess", some t⟩) := by
  refine ⟨by rw [SimpleSearch_error db w key e herr], ?_, ?_⟩
  · intro bf hbf ht
    rw [BloomSearch_accepted h db w bf key hbf ht, SimpleSearch_error db w key e herr]
  · intro t heq
    simp at heq

theorem C4_store_errors_surface_witness :
    (SimpleSearch dbDown wNine (.ok ⟨"9.9.9.9"⟩)).1
      = .json 200 ⟨1000, "connection refused", none⟩ ∧
    (BloomSearch demoHashes dbDown wNine (.ok ⟨"9.9.9.9"⟩)).1
      = .json 200 ⟨1000, "connection refused", none⟩ :=
  have hall := C4_store_errors_surface demoHashes dbDown wNine "9.9.9.9" "connection refused" rfl
  ⟨hall.1, hall.2.1 _ rfl (BloomFilter.Test_Add_self demoHashes _ _)⟩

/-- C5, as the code has it: when the enumeration can be opened,
`createBloomFilter` returns, and the filter it leaves in `BF` is the new filter
to which exactly the keys of the rows that `rows.Scan` read without error were
added, in order; every `Scan` error is logged and the row skipped.  So the key
of every row that the enumeration handed out and that was read without error
tests positive, and when `Scan` failed on every row the filter rejects every
key. -/
theorem C5_build_adds_exactly_scanned_rows (est : Nat → ℚ → Nat × Nat)
    (h : String → Nat → Nat) (db : Store) (w : World) (expectedItems : Nat)
    (falsePositiveRate : ℚ) (hopen : db.faults.rowsErr = none) :
    ∃ w' bf, createBloomFilter est h db w expectedItems falsePositiveRate = .returned w' ∧
      w'.BF = some bf ∧
      bf = ((db.reads.filter (fun r => r.scanErr.isNone)).map RowRead.value).foldl
              (BloomFilter.Add h) (NewWithEstimates est expectedItems falsePositiveRate) ∧
      w'.logged = w.logged ++ db.reads.filterMap (fun r => r.scanErr) ∧
      (∀ i row, db.table[i]? = some row → db.reaches i = true →
        db.faults.scanErr i = none → bf.Test h row.Value = true) ∧
      ((∀ r ∈ db.reads, r.scanErr ≠ none) → ∀ key, bf.Test h key = false) := by
  have hrows : db.Rows = .ok db.reads := by simp [Store.Rows, hopen]
  refine ⟨_, _, createBloomFilter_BF est h db w expectedItems falsePositiveRate db.reads hrows,
    rfl, by rw [addedKeys_eq_filter], rfl, ?_, ?_⟩
  · intro i row hrow hreach hscan
    exact BloomFilter.Test_foldl_Add_mem h _ _ _ (db.mem_addedKeys_reads i row hrow hreach hscan)
  · intro hall key
    rw [addedKeys_eq_nil db.reads hall]
    exact BloomFilter.Test_New h _ _ key

theorem C5_build_adds_exactly_scanned_rows_witness :
    ∃ w' bf, createBloomFilter est1000 demoHashes dbMixed w0 1000 (1 / 100) = .returned w' ∧
      w'.BF = some bf ∧
      bf = (NewWithEstimates est1000 1000 (1 / 100)).Add demoHashes "5.6.7.8" ∧
      w'.logged = ["sql: Scan error on column index 0"] ∧
      bf.Test demoHashes "5.6.7.8" = true :=
  let ⟨w', bf, hret, hbf, heq, hlog, hpos, _⟩ :=
    C5_build_adds_exactly_scanned_rows est1000 demoHashes dbMixed w0 1000 (1 / 100) rfl
  ⟨w', bf, hret, hbf, heq, hlog, hpos 1 rowB rfl rfl rfl⟩

/-- C5 fails as stated: the table of `dbScanFail` holds a row with the key
1.2.3.4, the enumeration hands it out, `rows.Scan` fails on it, the build
logs the error and returns, and the filter it leaves rejects the key. -/
theorem C5_counterexample :
    rowA ∈ dbScanFail.table ∧
    createBloomFilter est1000 demoHashes dbScanFail w0 1000 (1 / 100)
      = .returned ⟨some (NewWithEstimates est1000 1000 (1 / 100)), [StoreCall.rows],
          ["sql: Scan error on column index 0"]⟩ ∧
    (NewWithEstimates est1000 1000 (1 / 100)).Test demoHashes rowA.Value = false :=
  ⟨List.mem_cons_self _ _, rfl, BloomFilter.Test_New demoHashes _ _ _⟩

/-- C6, as the code has it: `createBloomFilter` keeps nothing of the previous
index.  It stores a newly allocated filter in `BF` before it enumerates, and
when it ends `BF` is that new filter with the keys scanned up to the point
where the enumeration stopped; the value does not depend on what `BF` held
before. -/
theorem C6_build_replaces_BF (est : Nat → ℚ → Nat × Nat) (h : String → Nat → Nat)
    (db : Store) (w : World) (expectedItems : Nat) (falsePositiveRate : ℚ) :
    (createBloomFilter est h db w expectedItems falsePositiveRate).world.BF
      = some (match db.Rows with
              | .ok rows => (addedKeys rows).foldl (BloomFilter.Add h)
                  (NewWithEstimates est expectedItems falsePositiveRate)
              | .error _ => NewWithEstimates est expectedItems falsePositiveRate) := by
  cases hrows : db.Rows with
  | ok rows =>
    rw [createBloomFilter_BF est h db w expectedItems falsePositiveRate rows hrows]
    rfl
  | error e => simp [createBloomFilter, hrows, BuildResult.world]

/-- C6 fails as stated: over `dbBroken`, whose enumeration breaks off after the
first of two rows, the build returns without logging anything, and `BF` is no
longer the previous filter but a new one to which only the first key was
added. -/
theorem C6_counterexample :
    dbBroken.table = [rowA, rowB] ∧
    createBloomFilter est1000 demoHashes dbBroken wPrev 1000 (1 / 100)
      = .returned ⟨some ((NewWithEstimates est1000 1000 (1 / 100)).Add demoHashes "1.2.3.4"),
          [StoreCall.rows], []⟩ ∧
    some ((NewWithEstimates est1000 1000 (1 / 100)).Add demoHashes "1.2.3.4") ≠ wPrev.BF := by
  refine ⟨rfl, rfl, ?_⟩
  intro heq
  have hm : (9586 : Nat) = 64 := congrArg (fun o => (o.map BloomFilter.m).getD 0) heq
  exact absurd hm (by decide)

/-- C7, as the code has it: `BloomSearch` has one success response.  When the
filter rejects the key and when the store was queried and had no row it gives
the identical response (code 1001 with the zero-valued record); the response
for a found row carries that row, and it differs from the other two for every
key that is not the empty string. -/
theorem C7_one_not_found_response (h : String → Nat → Nat) (db dbH : Store)
    (wF wC wH : World) (bfF bfC bfH : BloomFilter) (key : String) (r : ThreatInfo)
    (hF : wF.BF = some bfF) (htF : bfF.Test h key = false)
    (hC : wC.BF = some bfC) (htC : bfC.Test h key = true)
    (habsent : db.PointLookup key = .ok none)
    (hH : wH.BF = some bfH) (htH : bfH.Test h key = true)
    (hfound : dbH.PointLookup key = .ok (some r)) (hkey : key ≠ "") :
    (BloomSearch h db wF (.ok ⟨key⟩)).1 = (BloomSearch h db wC (.ok ⟨key⟩)).1 ∧
    (BloomSearch h dbH wH (.ok ⟨key⟩)).1 = .json 200 ⟨1001, "sucess", some r⟩ ∧
    (BloomSearch h dbH wH (.ok ⟨key⟩)).1 ≠ (BloomSearch h db wF (.ok ⟨key⟩)).1 := by
  have hv := dbH.PointLookup_Value key r hfound
  rw [BloomSearch_rejected h db wF bfF key hF htF,
    BloomSearch_accepted h db wC bfC key hC htC, SimpleSearch_absent db wC key habsent,
    BloomSearch_accepted h dbH wH bfH key hH htH, SimpleSearch_found dbH wH key r hfound]
  refine ⟨rfl, rfl, ?_⟩
  intro heq
  have hr : r = ThreatInfo.zero := by
    simpa using heq
  rw [hr] at hv
  exact hkey hv.symm

theorem C7_one_not_found_response_witness :
    (BloomSearch demoHashes dbGood wEmpty (.ok ⟨"9.9.9.9"⟩)).1
      = (BloomSearch demoHashes dbGood wNine (.ok ⟨"9.9.9.9"⟩)).1 ∧
    (BloomSearch demoHashes ⟨[⟨"scanner", "US", "9.9.9.9", "ip", "feed"⟩], Faults.none⟩ wNine
        (.ok ⟨"9.9.9.9"⟩)).1
      = .json 200 ⟨1001, "sucess", some ⟨"scanner", "US", "9.9.9.9", "ip", "feed"⟩⟩ ∧
    (BloomSearch demoHashes ⟨[⟨"scanner", "US", "9.9.9.9", "ip", "feed"⟩], Faults.none⟩ wNine
        (.ok ⟨"9.9.9.9"⟩)).1
      ≠ (BloomSearch demoHashes dbGood wEmpty (.ok ⟨"9.9.9.9"⟩)).1 :=
  C7_one_not_found_response demoHashes dbGood
    ⟨[⟨"scanner", "US", "9.9.9.9", "ip", "feed"⟩], Faults.none⟩ wEmpty wNine wNine
    (NewWithEstimates est1000 1000 (1 / 100))
    ((NewWithEstimates est1000 1000 (1 / 100)).Add demoHashes "9.9.9.9")
    ((NewWithEstimates est1000 1000 (1 / 100)).Add demoHashes "9.9.9.9")
    "9.9.9.9" ⟨"scanner", "US", "9.9.9.9", "ip", "feed"⟩
    rfl (BloomFilter.Test_New demoHashes _ _ _)
    rfl (BloomFilter.Test_Add_self demoHashes _ _) rfl
    rfl (BloomFilter.Test_Add_self demoHashes _ _) rfl (by decide)

/-- C7 fails as stated: for the key 9.9.9.9, which has no row in `dbGood`, the
response when the filter rejects the key (no call to the store) and the
response when the filter accepts it and the store is queried are equal. -/
theorem C7_counterexample :
    dbGood.PointLookup "9.9.9.9" = .ok none ∧
    (BloomSearch demoHashes dbGood wEmpty (.ok ⟨"9.9.9.9"⟩)).2.calls = [] ∧
    (BloomSearch demoHashes dbGood wNine (.ok ⟨"9.9.9.9"⟩)).2.calls
      = [StoreCall.find "9.9.9.9"] ∧
    (BloomSearch demoHashes dbGood wEmpty (.ok ⟨"9.9.9.9"⟩)).1
      = (BloomSearch demoHashes dbGood wNine (.ok ⟨"9.9.9.9"⟩)).1 := by
  have hF := BloomSearch_rejected demoHashes dbGood wEmpty
    (NewWithEstimates est1000 1000 (1 / 100)) "9.9.9.9" rfl
    (BloomFilter.Test_New demoHashes _ _ _)
  have hC := BloomSearch_accepted demoHashes dbGood wNine
    ((NewWithEstimates est1000 1000 (1 / 100)).Add demoHashes "9.9.9.9") "9.9.9.9" rfl
    (BloomFilter.Test_Add_self demoHashes _ _)
  have hS := SimpleSearch_absent dbGood wNine "9.9.9.9" rfl
  refine ⟨rfl, by rw [hF]; rfl, by rw [hC, hS]; rfl, by rw [hF, hC, hS]⟩

/-- C8, as the code has it: a `falsePositiveRate` of 1 is not rejected.  Where
the sizing for `expectedItems` and rate 1 is 0 bits and 0 probes (what the
formula gives for a positive `expectedItems`), `createBloomFilter` returns
whenever the enumeration can be opened, and `BF` then is a new filter of one
bit and one probe, whatever it held before: bit 0 is set as soon as one key was
added. -/
theorem C8_rate_one_not_rejected (est : Nat → ℚ → Nat × Nat) (h : String → Nat → Nat)
    (db : Store) (w : World) (expectedItems : Nat)
    (hest : est expectedItems 1 = (0, 0)) (hopen : db.faults.rowsErr = none) :
    ∃ w', createBloomFilter est h db w expectedItems 1 = .returned w' ∧
      w'.BF = some ⟨1, 1, ⟨if addedKeys db.reads = [] then [] else [true]⟩⟩ := by
  have hrows : db.Rows = .ok db.reads := by simp [Store.Rows, hopen]
  have hnew : NewWithEstimates est expectedItems 1 = ⟨1, 1, ⟨[]⟩⟩ := by
    simp [NewWithEstimates, hest, BloomFilter.New, BitSet.New]
  refine ⟨_, createBloomFilter_BF est h db w expectedItems 1 db.reads hrows, ?_⟩
  simp only [hnew, BloomFilter.foldl_Add_one_bit]

theorem C8_rate_one_not_rejected_witness :
    ∃ w', createBloomFilter estRateOne demoHashes dbGood wPrev 7 1 = .returned w' ∧
      w'.BF = some ⟨1, 1, ⟨[true]⟩⟩ :=
  C8_rate_one_not_rejected estRateOne demoHashes dbGood wPrev 7 rfl rfl

/-- C8 fails as stated: with `falsePositiveRate = 1`, a rate outside the open
interval, `createBloomFilter` returns without any error, having replaced the
previous filter by a new one of one bit. -/
theorem C8_counterexample :
    createBloomFilter estRateOne demoHashes dbGood wPrev 5 1
      = .returned ⟨some ⟨1, 1, ⟨[true]⟩⟩, [StoreCall.rows], []⟩ ∧
    (some ⟨1, 1, ⟨[true]⟩⟩ : Option BloomFilter) ≠ wPrev.BF := by
  refine ⟨by decide, ?_⟩
  intro heq
  have hm : (1 : Nat) = 64 := congrArg (fun o => (o.map BloomFilter.m).getD 0) heq
  exact absurd hm (by decide)

/-- C9: a positive filter test delegates to the direct path.  When
`BF.Test(key)` is true, `BloomSearch` gives exactly the response and state
`SimpleSearch` gives, whatever the store answers, having issued the same
single point lookup; for a false positive (no row in the store) that is the
success response with the zero-valued record, not a failure. -/
theorem C9_accepted_key_delegates (h : String → Nat → Nat) (db : Store) (w : World)
    (bf : BloomFilter) (key : String) (hbf : w.BF = some bf) (ht : bf.Test h key = true) :
    BloomSearch h db w (.ok ⟨key⟩) = SimpleSearch db w (.ok ⟨key⟩) ∧
    (BloomSearch h db w (.ok ⟨key⟩)).2.calls = w.calls ++ [StoreCall.find key] ∧
    (db.PointLookup key = .ok none →
      (BloomSearch h db w (.ok ⟨key⟩)).1
        = .json 200 ⟨1001, "sucess", some ThreatInfo.zero⟩) := by
  rw [BloomSearch_accepted h db w bf key hbf ht]
  refine ⟨rfl, SimpleSearch_calls db w key, ?_⟩
  intro habsent
  rw [SimpleSearch_absent db w key habsent]

theorem C9_accepted_key_delegates_witness :
    BloomSearch demoHashes dbGood wNine (.ok ⟨"9.9.9.9"⟩)
      = SimpleSearch dbGood wNine (.ok ⟨"9.9.9.9"⟩) ∧
    (BloomSearch demoHashes dbGood wNine (.ok ⟨"9.9.9.9"⟩)).2.calls
      = [StoreCall.find "9.9.9.9"] ∧
    (BloomSearch demoHashes dbGood wNine (.ok ⟨"9.9.9.9"⟩)).1
      = .json 200 ⟨1001, "sucess", some ThreatInfo.zero⟩ :=
  have hall := C9_accepted_key_delegates demoHashes dbGood wNine
    ((NewWithEstimates est1000 1000 (1 / 100)).Add demoHashes "9.9.9.9") "9.9.9.9" rfl
    (BloomFilter.Test_Add_self demoHashes _ _)
  ⟨hall.1, hall.2.1, hall.2.2 rfl⟩

/-- C10, as the code has it: `createBloomFilter` publishes the new filter
before it is filled.  The first state of a build has `BF` pointing to the new,
empty filter, which rejects every key; the keys are then added to that
published filter in place, so that after `j` turns of the loop `BF` holds the
keys of the first `j` rows only; the last state is the one the call ends in. -/
theorem C10_filter_published_before_filled (est : Nat → ℚ → Nat × Nat)
    (h : String → Nat → Nat) (db : Store) (w : World) (expectedItems : Nat)
    (falsePositiveRate : ℚ) :
    (buildStates est h db w expectedItems falsePositiveRate).head?
      = some { w with BF := some (NewWithEstimates est expectedItems falsePositiveRate) } ∧
    (∀ key, (NewWithEstimates est expectedItems falsePositiveRate).Test h key = false) ∧
    (∀ rows, db.Rows = .ok rows → ∀ j, j ≤ rows.length →
      (buildStates est h db w expectedItems falsePositiveRate)[j + 1]?
        = some ⟨some ((addedKeys (rows.take j)).foldl (BloomFilter.Add h)
                  (NewWithEstimates est expectedItems falsePositiveRate)),
            w.calls ++ [StoreCall.rows],
            w.logged ++ (rows.take j).filterMap (fun r => r.scanErr)⟩) ∧
    (buildStates est h db w expectedItems falsePositiveRate).getLast?
      = some (createBloomFilter est h db w expectedItems falsePositiveRate).world := by
  refine ⟨?_, fun key => BloomFilter.Test_New h _ _ key, ?_, ?_⟩
  · unfold buildStates
    cases db.Rows <;> rfl
  · intro rows hrows j hj
    have hst := scanStates_getElem? h rows
      (NewWithEstimates est expectedItems falsePositiveRate, w.logged) j hj
    simp only [buildStates, hrows, List.getElem?_cons_succ]
    have hmap := congrArg (Option.map (fun (s : BloomFilter × List String) =>
      (⟨some s.1, w.calls ++ [StoreCall.rows], s.2⟩ : World))) hst
    rw [← List.getElem?_map] at hmap
    simp only [List.map_cons, Option.map_some', scanLoop_fst, scanLoop_snd] at hmap
    exact hmap
  · cases hrows : db.Rows with
    | error e => simp [buildStates, createBloomFilter, hrows, BuildResult.world]
    | ok rows =>
      have hst := scanStates_getLast? h rows
        (NewWithEstimates est expectedItems falsePositiveRate, w.logged)
      have hmap := congrArg (Option.map (fun (s : BloomFilter × List String) =>
        (⟨some s.1, w.calls ++ [StoreCall.rows], s.2⟩ : World))) hst
      rw [← List.getLast?_map] at hmap
      simp only [buildStates, createBloomFilter, hrows, BuildResult.world]
      rw [List.getLast?_cons_cons]
      simpa using hmap

/-- C10 fails as stated: a rebuild over the unchanged store `dbGood` starts
from `wOld`, whose filter holds the key 1.2.3.4, and ends with a filter that
holds it again; in between, right after line 146, `BF` is the empty new
filter, and `BloomSearch` on that state answers with the zero-valued record
where it answers with the row on the old and on the new filter. -/
theorem C10_counterexample :
    (buildStates est1000 demoHashes dbGood wOld 1000 (1 / 100)).head? = some wMid ∧
    (BloomSearch demoHashes dbGood wOld (.ok ⟨"1.2.3.4"⟩)).1
      = .json 200 ⟨1001, "sucess", some rowA⟩ ∧
    (BloomSearch demoHashes dbGood
        (createBloomFilter est1000 demoHashes dbGood wOld 1000 (1 / 100)).world
        (.ok ⟨"1.2.3.4"⟩)).1
      = .json 200 ⟨1001, "sucess", some rowA⟩ ∧
    (BloomSearch demoHashes dbGood wMid (.ok ⟨"1.2.3.4"⟩)).1
      = .json 200 ⟨1001, "sucess", some ThreatInfo.zero⟩ := by
  have hrows : dbGood.Rows = .ok [⟨"1.2.3.4", none⟩, ⟨"5.6.7.8", none⟩] := rfl
  have hpos := BloomFilter.Test_foldl_Add_mem demoHashes
    (addedKeys [⟨"1.2.3.4", none⟩, ⟨"5.6.7.8", none⟩])
    (NewWithEstimates est1000 1000 (1 / 100)) "1.2.3.4" (List.mem_cons_self _ _)
  have hfind : dbGood.PointLookup "1.2.3.4" = .ok (some rowA) := rfl
  refine ⟨rfl, ?_, ?_, ?_⟩
  · unfold wOld
    rw [createBloomFilter_BF est1000 demoHashes dbGood w0 1000 (1 / 100) _ hrows,
      BloomSearch_accepted demoHashes dbGood _ _ "1.2.3.4" rfl hpos,
      SimpleSearch_found dbGood _ "1.2.3.4" rowA hfind]
  · rw [createBloomFilter_BF est1000 demoHashes dbGood wOld 1000 (1 / 100) _ hrows,
      BloomSearch_accepted demoHashes dbGood _ _ "1.2.3.4" rfl hpos,
      SimpleSearch_found dbGood _ "1.2.3.4" rowA hfind]
  · rw [BloomSearch_rejected demoHashes dbGood wMid (NewWithEstimates est1000 1000 (1 / 100))
      "1.2.3.4" rfl (BloomFilter.Test_New demoHashes _ _ _)]

end BloomExample
